import Mathlib

/-!
# Verification of the Student Management System request handlers

Shallow embedding of `src/student_info_system/app.py` (a Flask + SQLite
application).  The SQLite `students` / `users` tables are modelled as Lean
lists of records, the Flask session as a record of optional values, and each
route handler as a pure function from the database state (plus session and
form input) to a result descriptor and the new database state.

Python's `datetime.utcnow().isoformat()` timestamps are modelled by a
monotone `clock : Nat` counter (ISO timestamps compare lexicographically in
chronological order), and `AUTOINCREMENT` row ids by a `nextStudentId`
counter.  Password hashing (`generate_password_hash` /
`check_password_hash`) is kept abstract: the functions that use it take the
hash generator / checker as an explicit function argument.
-/

/-- Python's `\s` character class / `str.strip` whitespace, restricted to the
ASCII range actually exercised here: space, tab, newline, carriage return,
vertical tab and form feed. -/
def pyIsSpace (c : Char) : Bool :=
  c = ' ' || c = '\t' || c = '\n' || c = '\r' || c = '\x0b' || c = '\x0c'

/-- Python's `str.strip()`: drop leading and trailing whitespace. -/
def pyStrip (s : String) : String :=
  String.mk (((s.data.dropWhile pyIsSpace).reverse.dropWhile pyIsSpace).reverse)

/-- Python's `s or None` idiom used when storing optional fields: the empty
string becomes SQL `NULL` (`none`), anything else is kept. -/
def orNone (s : String) : Option String :=
  if s = "" then none else some s

/-- A row of the `students` table (schema from `init_db`):
`id INTEGER PRIMARY KEY AUTOINCREMENT, student_id TEXT UNIQUE NOT NULL,
name TEXT NOT NULL, department TEXT NOT NULL, email TEXT UNIQUE, phone TEXT,
created_at TEXT NOT NULL`. -/
structure Student where
  id : Nat
  student_id : String
  name : String
  department : String
  email : Option String
  phone : Option String
  created_at : Nat
  deriving Repr, DecidableEq

/-- A row of the `users` table. -/
structure User where
  id : Nat
  username : String
  password_hash : String
  created_at : Nat
  deriving Repr, DecidableEq

/-- The SQLite database file: both tables plus the `AUTOINCREMENT` counters
and the model clock feeding `datetime.utcnow()`. -/
structure DB where
  users : List User
  students : List Student
  nextUserId : Nat
  nextStudentId : Nat
  clock : Nat
  deriving Repr, DecidableEq

/-- The Flask session cookie contents used by the app:
`user_id`, `username` and `_csrf_token` keys (each possibly absent). -/
structure Session where
  user_id : Option Nat
  username : Option String
  csrf_token : Option String
  deriving Repr, DecidableEq

/-- The raw student form (`request.form`); `form.get(key, "")` defaults every
missing field to the empty string, so each field is a plain `String`.  The
`csrf_token` field is accessed with `form.get("csrf_token")` (no default) and
is therefore passed to the handlers separately as an `Option String`. -/
structure StudentForm where
  name : String
  student_id : String
  department : String
  email : String
  phone : String
  deriving Repr, DecidableEq

/-- The normalized record returned by `validate_student`. -/
structure StudentData where
  name : String
  student_id : String
  department : String
  email : String
  phone : String
  deriving Repr, DecidableEq

/-- `l` has a `'.'` at a position that is neither first nor last
(used for the `[^@\s]+\.[^@\s]+` tail of the e-mail regex). -/
def dotNotLast : List Char → Bool
  | [] => false
  | [_] => false
  | c :: d :: t => c = '.' || dotNotLast (d :: t)

/-- `interiorDot l`: some `'.'` occurs in `l` at an interior position. -/
def interiorDot : List Char → Bool
  | [] => false
  | _ :: t => dotNotLast t

/-- Character class `[^@\s]` of `EMAIL_RE`. -/
def emailChar (c : Char) : Bool :=
  !(c = '@') && !pyIsSpace c

/-- `EMAIL_RE.match(s)` for `EMAIL_RE = ^[^@\s]+@[^@\s]+\.[^@\s]+$`:
the string splits at its unique `'@'` into a non-empty local part and a
domain that contains an interior dot, with no `'@'` or whitespace anywhere
else.  (`validate_student` only applies the regex to stripped strings, so
Python's `$`-before-trailing-newline quirk cannot fire.) -/
def EMAIL_RE_match (s : String) : Bool :=
  let cs := s.data
  let lp := cs.takeWhile (fun c => !(c = '@'))
  match cs.dropWhile (fun c => !(c = '@')) with
  | '@' :: dom =>
      !lp.isEmpty && lp.all (fun c => !pyIsSpace c) &&
        dom.all emailChar && interiorDot dom
  | _ => false

/-- Character class `[0-9+\-\s]` of the phone regex. -/
def phoneChar (c : Char) : Bool :=
  c.isDigit || c = '+' || c = '-' || pyIsSpace c

/-- `re.fullmatch(r"[0-9+\-\s]{7,20}", s)`: 7 to 20 characters, each a
digit, `'+'`, `'-'` or whitespace. -/
def PHONE_RE_fullmatch (s : String) : Bool :=
  7 ≤ s.length && s.length ≤ 20 && s.data.all phoneChar

/-- `validate_student(form)`: strips the five fields, collects the error
messages in source order, and returns them with the normalized data. -/
def validate_student (form : StudentForm) : List String × StudentData :=
  let name := pyStrip form.name
  let student_id := pyStrip form.student_id
  let department := pyStrip form.department
  let email := pyStrip form.email
  let phone := pyStrip form.phone
  let errors :=
    (if name = "" then ["Name is required."] else []) ++
    (if student_id = "" then ["Student ID is required."] else []) ++
    (if department = "" then ["Department is required."] else []) ++
    (if email ≠ "" && !EMAIL_RE_match email then ["Invalid email format."] else []) ++
    (if phone ≠ "" && !PHONE_RE_fullmatch phone
      then ["Phone should contain digits, spaces, '+' or '-' only."] else [])
  (errors, ⟨name, student_id, department, email, phone⟩)

/-- `validate_csrf(token_from_form)`:
`token_from_form and token_from_form == session.get("_csrf_token")`.
An absent (`None`) or empty token is falsy; otherwise the token must equal
the session's stored `_csrf_token` (a comparison with an absent session
token is `False`). -/
def validate_csrf (token_from_form : Option String) (sess : Session) : Bool :=
  match token_from_form with
  | none => false
  | some t => !(t = "") && sess.csrf_token = some t

/-- Result of a POST to `/students/new` (`create_student`). -/
inductive CreateResult where
  /-- `abort(400)`: CSRF validation failed. -/
  | badCsrf
  /-- validation errors flashed, form re-rendered with the submitted data. -/
  | invalid (errors : List String) (data : StudentData)
  /-- `sqlite3.IntegrityError` translated to a field-specific flash. -/
  | dupError (msg : String)
  /-- row inserted, flash `"Student added."`, redirect to the list. -/
  | created
  deriving Repr, DecidableEq

/-- The row inserted by `create_student`'s `INSERT`: fresh `AUTOINCREMENT`
id, the normalized fields (empty e-mail/phone stored as `NULL`), and the
server-assigned creation timestamp. -/
def newStudent (db : DB) (d : StudentData) : Student :=
  { id := db.nextStudentId
    student_id := d.student_id
    name := d.name
    department := d.department
    email := orNone d.email
    phone := orNone d.phone
    created_at := db.clock }

/-- POST branch of `create_student`.  The `INSERT` hits the
`student_id`/`email` UNIQUE constraints in declaration order (SQLite reports
the first violated unique index, `students.student_id` before
`students.email`), which the handler translates into the two field-specific
messages; `email or None` / `phone or None` store empty strings as `NULL`,
and `NULL` e-mails never conflict. -/
def create_student (db : DB) (sess : Session) (csrf : Option String)
    (form : StudentForm) : CreateResult × DB :=
  if !validate_csrf csrf sess then (.badCsrf, db)
  else
    let v := validate_student form
    if !v.1.isEmpty then (.invalid v.1 v.2, db)
    else if db.students.any (fun s => s.student_id = v.2.student_id) then
      (.dupError "Student ID already exists.", db)
    else if !(v.2.email = "") && db.students.any (fun s => s.email = some v.2.email) then
      (.dupError "Email already exists.", db)
    else
      (.created,
        { db with
          students := db.students ++ [newStudent db v.2]
          nextStudentId := db.nextStudentId + 1
          clock := db.clock + 1 })

/-- Result of a POST to `/students/<id>/edit` (`edit_student`). -/
inductive EditResult where
  /-- `abort(404)`: no row with this id. -/
  | notFound
  /-- `abort(400)`: CSRF validation failed. -/
  | badCsrf
  /-- validation errors flashed, form re-rendered. -/
  | invalid (errors : List String) (data : StudentData)
  /-- manual uniqueness re-check found a conflicting other row. -/
  | conflict (msg : String)
  /-- `UPDATE` executed, flash `"Student updated."`, redirect to the view. -/
  | updated
  deriving Repr, DecidableEq

/-- The `UPDATE students SET student_id=?, name=?, department=?, email=?,
phone=? WHERE id=?` statement applied to one row. -/
def applyUpdate (d : StudentData) (i : Nat) (s : Student) : Student :=
  if s.id = i then
    { s with
      student_id := d.student_id
      name := d.name
      department := d.department
      email := orNone d.email
      phone := orNone d.phone }
  else s

/-- POST branch of `edit_student`.  The row lookup (404 on absence) happens
before the CSRF check; uniqueness is re-checked manually with
`... AND id != ?` to exclude the edited row itself, the e-mail check only
when the new e-mail is non-empty. -/
def edit_student (db : DB) (sess : Session) (i : Nat) (csrf : Option String)
    (form : StudentForm) : EditResult × DB :=
  match db.students.find? (fun s => s.id = i) with
  | none => (.notFound, db)
  | some _row =>
    if !validate_csrf csrf sess then (.badCsrf, db)
    else
      let v := validate_student form
      if !v.1.isEmpty then (.invalid v.1 v.2, db)
      else if db.students.any (fun s => s.student_id = v.2.student_id && !(s.id = i)) then
        (.conflict "Student ID already exists.", db)
      else if !(v.2.email = "") &&
          db.students.any (fun s => s.email = some v.2.email && !(s.id = i)) then
        (.conflict "Email already exists.", db)
      else
        (.updated, { db with students := db.students.map (applyUpdate v.2 i) })

/-- Result of a POST to `/students/<id>/delete` (`delete_student`). -/
inductive DeleteResult where
  /-- `abort(400)`: CSRF validation failed. -/
  | badCsrf
  /-- `DELETE` executed, flash `"Student deleted."`, redirect to the list. -/
  | deleted
  deriving Repr, DecidableEq

/-- `delete_student`: CSRF check, then `DELETE FROM students WHERE id = ?`
(which succeeds whether or not any row matches), then redirect. -/
def delete_student (db : DB) (sess : Session) (i : Nat)
    (csrf : Option String) : DeleteResult × DB :=
  if !validate_csrf csrf sess then (.badCsrf, db)
  else (.deleted, { db with students := db.students.filter (fun s => !(s.id = i)) })

/-- `anySuffix f s`: does `f` accept some suffix of `s` (including `s` itself
and the empty suffix)?  Helper for the `%` wildcard of SQL `LIKE`. -/
def anySuffix (f : List Char → Bool) : List Char → Bool
  | [] => f []
  | d :: s => f (d :: s) || anySuffix f s

/-- SQLite's `LIKE` operator on the pattern `p` and string `s` (no `ESCAPE`
clause): `%` matches any sequence, `_` any single character, and plain
characters match up to ASCII case folding (SQLite folds `A`–`Z` only). -/
def likeCore : List Char → List Char → Bool
  | [], s => s.isEmpty
  | c :: p, s =>
    if c = '%' then anySuffix (likeCore p) s
    else
      match s with
      | [] => false
      | d :: s' => (if c = '_' then true else Char.toLower c = Char.toLower d) && likeCore p s'

/-- The parameter `f"%{q}%"` bound to each `LIKE` in `list_students`. -/
def likePat (q : String) : List Char :=
  '%' :: q.data ++ ['%']

/-- One `column LIKE ?` comparison of `list_students`. -/
def sqlLike (q : String) (field : String) : Bool :=
  likeCore (likePat q) field.data

/-- The `WHERE name LIKE ? OR student_id LIKE ? OR department LIKE ? OR
email LIKE ?` filter; a `NULL` e-mail makes its `LIKE` evaluate to SQL
`NULL`, so the disjunct is not satisfied. -/
def studentMatches (q : String) (s : Student) : Bool :=
  sqlLike q s.name || sqlLike q s.student_id || sqlLike q s.department ||
    (match s.email with
     | some e => sqlLike q e
     | none => false)

/-- `ORDER BY created_at DESC`: `a` sorts no later than `b` when it was
created no earlier. -/
def newerFirst (a b : Student) : Prop :=
  b.created_at ≤ a.created_at

instance : DecidableRel newerFirst := fun _ _ => Nat.decLe _ _

/-- `list_students` (GET `/students`): strip the `q` query parameter; when
non-empty, filter with the four-way `LIKE` disjunction; return the rows
ordered newest-first by `created_at`. -/
def list_students (db : DB) (qRaw : String) : List Student :=
  let q := pyStrip qRaw
  let rows := if !(q = "") then db.students.filter (studentMatches q) else db.students
  rows.insertionSort newerFirst

/-- Outcome of a request to a `login_required`-wrapped view. -/
inductive Guarded (α : Type) where
  /-- `redirect(url_for("login", next=request.path))`. -/
  | redirectLogin (next : String)
  /-- the wrapped view ran and produced `a`. -/
  | proceed (a : α)
  deriving Repr, DecidableEq

/-- The `login_required` decorator: if the session holds no `user_id`,
redirect to the login page carrying the requested path as the `next`
parameter; otherwise run the view unchanged. -/
def login_required {α : Type} (sess : Session) (path : String)
    (view : Unit → α) : Guarded α :=
  if sess.user_id = none then .redirectLogin path else .proceed (view ())

/-- GET `/students` as routed: `login_required` around `list_students`,
with `request.path = "/students"`. -/
def students_route (db : DB) (sess : Session) (q : String) : Guarded (List Student) :=
  login_required sess "/students" (fun _ => list_students db q)

/-- The login form (`request.form`); both fields default to `""`. -/
structure LoginForm where
  username : String
  password : String
  deriving Repr, DecidableEq

/-- Outcome of a POST to `/login`. -/
inductive LoginResult where
  /-- flash `"Welcome back!"` and `redirect(request.args.get("next") or
  url_for("list_students"))`. -/
  | success (target : String)
  /-- the generic failure: one flash message, then the login template is
  rendered again. -/
  | failure (template : String) (flash : String)
  deriving Repr, DecidableEq

/-- POST branch of `login`.  `check` abstracts
`check_password_hash(password_hash, password)`.  The username is stripped,
the password is not; a missing user and a wrong password reach the same
flash-and-render line.  On success `session.clear()` wipes every key before
`user_id`/`username` are stored, and the redirect target is the `next` query
parameter unless it is absent or empty.  The handler only runs `SELECT`
statements, so the database is returned unchanged. -/
def login_post (check : String → String → Bool) (db : DB) (sess : Session)
    (form : LoginForm) (next : Option String) : LoginResult × Session × DB :=
  let username := pyStrip form.username
  match db.users.find? (fun u => u.username = username) with
  | some u =>
    if check u.password_hash form.password then
      (.success
        (match next with
         | some n => if n = "" then "/students" else n
         | none => "/students"),
       { user_id := some u.id, username := some u.username, csrf_token := none },
       db)
    else (.failure "auth/login.html" "Invalid username or password.", sess, db)
  | none => (.failure "auth/login.html" "Invalid username or password.", sess, db)

/-- The database corresponding to a freshly created SQLite file: both tables
empty, `AUTOINCREMENT` counters at 1. -/
def emptyDB : DB :=
  { users := [], students := [], nextUserId := 1, nextStudentId := 1, clock := 0 }

/-- `init_db`: create the tables if absent (a no-op on the state model) and
seed the `admin` user when no row with that username exists.  `gen`
abstracts `generate_password_hash`. -/
def init_db (gen : String → String) (db : DB) : DB :=
  if db.users.any (fun u => u.username = "admin") then db
  else
    { db with
      users := db.users ++
        [{ id := db.nextUserId
           username := "admin"
           password_hash := gen "admin123"
           created_at := db.clock }]
      nextUserId := db.nextUserId + 1
      clock := db.clock + 1 }

/-- Database states reachable from a freshly initialized database through
the three mutating student handlers (with arbitrary sessions, tokens and
form inputs). -/
inductive Reachable : DB → Prop where
  | init (gen : String → String) : Reachable (init_db gen emptyDB)
  | create (db : DB) (sess : Session) (csrf : Option String) (form : StudentForm) :
      Reachable db → Reachable (create_student db sess csrf form).2
  | edit (db : DB) (sess : Session) (i : Nat) (csrf : Option String) (form : StudentForm) :
      Reachable db → Reachable (edit_student db sess i csrf form).2
  | delete (db : DB) (sess : Session) (i : Nat) (csrf : Option String) :
      Reachable db → Reachable (delete_student db sess i csrf).2

/-- Rows `a` and `b` do not collide: distinct internal ids, distinct
`student_id`s, and no shared non-`NULL` e-mail. -/
def RowsDistinct (a b : Student) : Prop :=
  a.id ≠ b.id ∧ a.student_id ≠ b.student_id ∧
    ∀ e, a.email = some e → b.email ≠ some e

/-- The strengthened inductive invariant: rows pairwise non-colliding, the
three required fields non-empty, and every id below the `AUTOINCREMENT`
counter. -/
def DBInv (db : DB) : Prop :=
  db.students.Pairwise RowsDistinct ∧
    (∀ s ∈ db.students, s.name ≠ "" ∧ s.student_id ≠ "" ∧ s.department ≠ "") ∧
    ∀ s ∈ db.students, s.id < db.nextStudentId

/-- The invariant as the specification states it: `student_id` values
pairwise distinct, non-`NULL` e-mails pairwise distinct, and the three
required fields non-empty on every row. -/
def studentsTableOk (l : List Student) : Prop :=
  l.Pairwise (fun a b => a.student_id ≠ b.student_id) ∧
    l.Pairwise (fun a b => ∀ e, a.email = some e → b.email ≠ some e) ∧
    ∀ s ∈ l, s.name ≠ "" ∧ s.student_id ≠ "" ∧ s.department ≠ ""

/-- `startsL q s`: `q` is a prefix of `s` (on raw character lists). -/
def startsL : List Char → List Char → Bool
  | [], _ => true
  | _ :: _, [] => false
  | c :: q, d :: s => c = d && startsL q s

/-- `occursL q s`: `q` occurs as a contiguous run inside `s`. -/
def occursL (q : List Char) : List Char → Bool
  | [] => startsL q []
  | d :: s => startsL q (d :: s) || occursL q s

/-- The specification-side search notion: `q` is a case-insensitive
substring of `s` (ASCII case folding, as SQLite's `LIKE` folds). -/
def substringCI (q s : String) : Bool :=
  occursL (q.data.map Char.toLower) (s.data.map Char.toLower)

/-- The specification-side match predicate of the list endpoint: `q` is a
case-insensitive substring of the name, student id, department, or of a
non-`NULL` e-mail. -/
def specMatches (q : String) (s : Student) : Prop :=
  substringCI q s.name = true ∨ substringCI q s.student_id = true ∨
    substringCI q s.department = true ∨
    ∃ e, s.email = some e ∧ substringCI q e = true

/-- The `local@domain.tld` shape of the specification: the raw string splits
as `local ++ "@" ++ domain ++ "." ++ tld` with all three parts non-empty and
free of `'@'` and whitespace. -/
def emailShape (s : String) : Prop :=
  ∃ lp dom tld : List Char,
    s.data = lp ++ '@' :: (dom ++ '.' :: tld) ∧
    lp ≠ [] ∧ dom ≠ [] ∧ tld ≠ [] ∧
    (∀ c ∈ lp, emailChar c = true) ∧ (∀ c ∈ dom, emailChar c = true) ∧
    (∀ c ∈ tld, emailChar c = true)

/-- The phone rule of the specification: 7 to 20 characters, each a digit,
whitespace, `'+'` or `'-'`. -/
def phoneShape (s : String) : Prop :=
  7 ≤ s.length ∧ s.length ≤ 20 ∧
    ∀ c ∈ s.data, c.isDigit = true ∨ pyIsSpace c = true ∨ c = '+' ∨ c = '-'

theorem emailChar_iff (c : Char) : emailChar c = true ↔ (c ≠ '@' ∧ pyIsSpace c = false) := by
  simp [emailChar]

theorem dotNotLast_iff :
    ∀ l : List Char, dotNotLast l = true ↔ ∃ u v, l = u ++ '.' :: v ∧ v ≠ []
  | [] => by
      simp only [dotNotLast, Bool.false_eq_true, false_iff]
      rintro ⟨u, v, h, -⟩
      exact absurd h (by simp)
  | [c] => by
      simp only [dotNotLast, Bool.false_eq_true, false_iff]
      rintro ⟨u, v, h, hv⟩
      match u with
      | [] => simp_all
      | a :: u' =>
        simp only [List.cons_append, List.cons.injEq] at h
        exact absurd h.2 (by simp)
  | c :: d :: t => by
      simp only [dotNotLast, Bool.or_eq_true, decide_eq_true_eq]
      constructor
      · rintro (rfl | h)
        · exact ⟨[], d :: t, rfl, by simp⟩
        · obtain ⟨u, v, huv, hv⟩ := (dotNotLast_iff (d :: t)).mp h
          exact ⟨c :: u, v, by simp [huv], hv⟩
      · rintro ⟨u, v, huv, hv⟩
        match u with
        | [] =>
          simp only [List.nil_append, List.cons.injEq] at huv
          exact Or.inl huv.1
        | a :: u' =>
          simp only [List.cons_append, List.cons.injEq] at huv
          exact Or.inr ((dotNotLast_iff (d :: t)).mpr ⟨u', v, huv.2, hv⟩)

theorem interiorDot_iff (l : List Char) :
    interiorDot l = true ↔ ∃ x y, l = x ++ '.' :: y ∧ x ≠ [] ∧ y ≠ [] := by
  match l with
  | [] =>
    simp only [interiorDot, Bool.false_eq_true, false_iff]
    rintro ⟨x, y, h, -, -⟩
    exact absurd h (by simp)
  | a :: t =>
    simp only [interiorDot, dotNotLast_iff]
    constructor
    · rintro ⟨u, v, huv, hv⟩
      exact ⟨a :: u, v, by simp [huv], by simp, hv⟩
    · rintro ⟨x, y, hxy, hx, hy⟩
      match x with
      | [] => exact absurd rfl hx
      | b :: x' =>
        simp only [List.cons_append, List.cons.injEq] at hxy
        exact ⟨x', y, hxy.2, hy⟩

theorem takeWhile_dropWhile_spec (p : Char → Bool) :
    ∀ l : List Char,
      (∀ c ∈ l.takeWhile p, p c = true) ∧
      l.takeWhile p ++ l.dropWhile p = l ∧
      (∀ d t, l.dropWhile p = d :: t → p d = false)
  | [] => by simp
  | c :: l => by
      obtain ⟨h1, h2, h3⟩ := takeWhile_dropWhile_spec p l
      by_cases hc : p c = true
      · simp only [List.takeWhile_cons, List.dropWhile_cons, hc, if_true]
        refine ⟨?_, by simp [h2], h3⟩
        intro d hd
        rcases List.mem_cons.mp hd with rfl | hd
        · exact hc
        · exact h1 d hd
      · simp only [List.takeWhile_cons, List.dropWhile_cons, hc, if_false]
        refine ⟨by simp, by simp, ?_⟩
        intro d t hdt
        cases hdt
        simpa using hc

theorem takeWhile_dropWhile_unique (p : Char → Bool) :
    ∀ (a : List Char) (d : Char) (t l : List Char),
      l = a ++ d :: t → (∀ c ∈ a, p c = true) → p d = false →
      l.takeWhile p = a ∧ l.dropWhile p = d :: t
  | [], d, t, l => by
      rintro rfl - hd
      simp [List.takeWhile_cons, List.dropWhile_cons, hd]
  | c :: a, d, t, l => by
      rintro rfl ha hd
      have hc : p c = true := ha c (by simp)
      have := takeWhile_dropWhile_unique p a d t (a ++ d :: t) rfl
        (fun x hx => ha x (by simp [hx])) hd
      simp [List.takeWhile_cons, List.dropWhile_cons, hc, this.1, this.2]

theorem EMAIL_RE_match_iff (s : String) :
    EMAIL_RE_match s = true ↔ emailShape s := by
  constructor
  · intro h
    simp only [EMAIL_RE_match] at h
    obtain ⟨hall, happ, hhead⟩ := takeWhile_dropWhile_spec (fun c => !(c = '@')) s.data
    revert h
    match hdw : s.data.dropWhile (fun c => !(c = '@')) with
    | [] => intro h; exact absurd h (by simp)
    | e :: dom =>
      have he : (fun c => !(c = '@')) e = false := hhead e dom hdw
      have he' : e = '@' := by simpa using he
      subst he'
      intro h
      have h' : (!(s.data.takeWhile (fun c => !(c = '@'))).isEmpty &&
          (s.data.takeWhile (fun c => !(c = '@'))).all (fun c => !pyIsSpace c) &&
          dom.all emailChar && interiorDot dom) = true := h
      simp only [Bool.and_eq_true, Bool.not_eq_true', List.all_eq_true] at h'
      obtain ⟨⟨⟨hne, hws⟩, hdomall⟩, hdot⟩ := h'
      obtain ⟨x, y, hxy, hx, hy⟩ := (interiorDot_iff dom).mp hdot
      refine ⟨s.data.takeWhile (fun c => !(c = '@')), x, y, ?_, ?_, hx, hy, ?_, ?_, ?_⟩
      · rw [← hxy, ← hdw, happ]
      · intro h0
        rw [h0] at hne
        simp at hne
      · intro c hc
        have h1 := hall c hc
        have h2 := hws c hc
        rw [emailChar_iff]
        constructor
        · simpa using h1
        · simpa using h2
      · intro c hc
        exact hdomall c (by rw [hxy]; exact List.mem_append_left _ hc)
      · intro c hc
        exact hdomall c (by rw [hxy]; simp [hc])
  · rintro ⟨lp, dom, tld, hsplit, hlp, hdom, htld, hlpok, hdomok, htldok⟩
    simp only [EMAIL_RE_match]
    have hlpp : ∀ c ∈ lp, (fun c => !(c = '@')) c = true := by
      intro c hc
      have := (emailChar_iff c).mp (hlpok c hc)
      simp [this.1]
    have hat : (fun c => !(c = '@')) '@' = false := by simp
    obtain ⟨htw, hdwx⟩ :=
      takeWhile_dropWhile_unique (fun c => !(c = '@')) lp '@' (dom ++ '.' :: tld) s.data
        hsplit hlpp hat
    rw [hdwx, htw]
    simp only [Bool.and_eq_true, Bool.not_eq_true', List.all_eq_true]
    refine ⟨⟨⟨by simpa using hlp, ?_⟩, ?_⟩, ?_⟩
    · intro c hc
      have := (emailChar_iff c).mp (hlpok c hc)
      simpa using this.2
    · intro c hc
      rcases List.mem_append.mp hc with hc | hc
      · exact hdomok c hc
      · rcases List.mem_cons.mp hc with rfl | hc
        · decide
        · exact htldok c hc
    · exact (interiorDot_iff _).mpr ⟨dom, tld, rfl, hdom, htld⟩

theorem PHONE_RE_fullmatch_iff (s : String) :
    PHONE_RE_fullmatch s = true ↔ phoneShape s := by
  simp only [PHONE_RE_fullmatch, phoneShape, Bool.and_eq_true, decide_eq_true_eq,
    List.all_eq_true, phoneChar, Bool.or_eq_true]
  constructor
  · rintro ⟨⟨h1, h2⟩, h3⟩
    refine ⟨h1, h2, fun c hc => ?_⟩
    have := h3 c hc
    tauto
  · rintro ⟨h1, h2, h3⟩
    refine ⟨⟨h1, h2⟩, fun c hc => ?_⟩
    have := h3 c hc
    tauto

theorem validate_student_fst_nil_iff (form : StudentForm) :
    (validate_student form).1 = [] ↔
      (pyStrip form.name ≠ "" ∧ pyStrip form.student_id ≠ "" ∧
        pyStrip form.department ≠ "" ∧
        (pyStrip form.email = "" ∨ EMAIL_RE_match (pyStrip form.email) = true) ∧
        (pyStrip form.phone = "" ∨ PHONE_RE_fullmatch (pyStrip form.phone) = true)) := by
  simp only [validate_student]
  by_cases h1 : pyStrip form.name = "" <;>
    by_cases h2 : pyStrip form.student_id = "" <;>
      by_cases h3 : pyStrip form.department = "" <;>
        by_cases h4 : pyStrip form.email = "" <;>
          by_cases h5 : pyStrip form.phone = "" <;>
            by_cases h6 : EMAIL_RE_match (pyStrip form.email) = true <;>
              by_cases h7 : PHONE_RE_fullmatch (pyStrip form.phone) = true <;>
                simp [h1, h2, h3, h4, h5, h6, h7]

theorem validate_student_snd (form : StudentForm) :
    (validate_student form).2 =
      ⟨pyStrip form.name, pyStrip form.student_id, pyStrip form.department,
        pyStrip form.email, pyStrip form.phone⟩ := rfl

theorem orNone_getD (s : String) : (orNone s).getD "" = s := by
  simp only [orNone]
  split <;> simp_all

theorem create_student_cases (db : DB) (sess : Session) (csrf : Option String)
    (form : StudentForm) :
    (create_student db sess csrf form).1 = .created →
      validate_csrf csrf sess = true ∧ (validate_student form).1 = [] ∧
      db.students.any (fun s => s.student_id = (validate_student form).2.student_id) = false ∧
      (¬ (validate_student form).2.email = "" →
        db.students.any (fun s => s.email = some (validate_student form).2.email) = false) ∧
      (create_student db sess csrf form).2 =
        { db with
          students := db.students ++ [newStudent db (validate_student form).2]
          nextStudentId := db.nextStudentId + 1
          clock := db.clock + 1 } := by
  intro h
  by_cases hc : validate_csrf csrf sess = true
  · by_cases hv : (validate_student form).1 = []
    · by_cases hs :
          db.students.any (fun s => s.student_id = (validate_student form).2.student_id) = true
      · exfalso
        simp [create_student, hc, hv, hs] at h
      · by_cases he : (validate_student form).2.email = ""
        · refine ⟨hc, hv, by simpa using hs, fun h' => absurd he h', ?_⟩
          simp [create_student, hc, hv, hs, he]
        · by_cases ha :
              db.students.any (fun s => s.email = some (validate_student form).2.email) = true
          · exfalso
            simp [create_student, hc, hv, hs, he, ha] at h
          · refine ⟨hc, hv, by simpa using hs, fun _ => by simpa using ha, ?_⟩
            simp [create_student, hc, hv, hs, he, ha]
    · exfalso
      simp [create_student, hc, hv] at h
  · exfalso
    simp [create_student, hc] at h

/-- C1: `validate_student` returns an empty error list iff the stripped
name, student id and department are non-empty, the stripped e-mail is empty
or of `local@domain.tld` shape, and the stripped phone is empty or 7–20
characters drawn from digits, whitespace, `'+'` and `'-'`; and every
submission accepted by `create_student` stores exactly the stripped
submitted values (a `NULL` e-mail/phone reading back as the empty string). -/
theorem C1_validate_and_store (form : StudentForm) :
    ((validate_student form).1 = [] ↔
      (pyStrip form.name ≠ "" ∧ pyStrip form.student_id ≠ "" ∧
        pyStrip form.department ≠ "" ∧
        (pyStrip form.email = "" ∨ emailShape (pyStrip form.email)) ∧
        (pyStrip form.phone = "" ∨ phoneShape (pyStrip form.phone)))) ∧
    ∀ (db : DB) (sess : Session) (csrf : Option String),
      (create_student db sess csrf form).1 = .created →
      ∃ row : Student,
        (create_student db sess csrf form).2.students = db.students ++ [row] ∧
        row.name = pyStrip form.name ∧
        row.student_id = pyStrip form.student_id ∧
        row.department = pyStrip form.department ∧
        row.email.getD "" = pyStrip form.email ∧
        row.phone.getD "" = pyStrip form.phone := by
  constructor
  · rw [validate_student_fst_nil_iff]
    simp only [EMAIL_RE_match_iff, PHONE_RE_fullmatch_iff]
  · intro db sess csrf h
    obtain ⟨-, -, -, -, hdb⟩ := create_student_cases db sess csrf form h
    refine ⟨newStudent db (validate_student form).2, by rw [hdb], ?_, ?_, ?_, ?_, ?_⟩ <;>
      simp [newStudent, validate_student_snd, orNone_getD]

/-- A freshly initialized database (with a throw-away hash function). -/
def db0 : DB := init_db (fun _ => "h0") emptyDB

/-- A logged-in admin session holding the CSRF token `"tok"`. -/
def sess0 : Session :=
  { user_id := some 1, username := some "admin", csrf_token := some "tok" }

/-- The worked example of the specification's testable properties. -/
def form0 : StudentForm :=
  { name := "Jane Doe", student_id := "S100", department := "CS",
    email := "jane@example.com", phone := "" }

theorem C1_witness :
    ∃ row : Student,
      (create_student db0 sess0 (some "tok") form0).2.students = db0.students ++ [row] ∧
      row.name = pyStrip form0.name ∧
      row.student_id = pyStrip form0.student_id ∧
      row.department = pyStrip form0.department ∧
      row.email.getD "" = pyStrip form0.email ∧
      row.phone.getD "" = pyStrip form0.phone :=
  (C1_validate_and_store form0).2 db0 sess0 (some "tok") (by decide)

/-- C2 counterexample: a POST to the edit endpoint for a non-existent id
with an absent CSRF token is answered with 404 (the row lookup aborts
before the CSRF check), not with the claimed 400. -/
theorem C2_counterexample :
    validate_csrf none sess0 = false ∧
    (edit_student db0 sess0 1 none form0).1 = .notFound ∧
    (edit_student db0 sess0 1 none form0).1 ≠ .badCsrf := by
  refine ⟨rfl, by decide, by decide⟩

/-- C2 (amended): a POST to create, edit or delete whose form CSRF token is
absent, empty, or different from the session's token leaves the students
table unchanged and fails with a client error: 400, except that a POST to
the edit endpoint for a non-existent id fails with 404. -/
theorem C2_csrf_rejected (db : DB) (sess : Session) (csrf : Option String)
    (form : StudentForm) (i : Nat)
    (h : csrf = none ∨ csrf = some "" ∨ ∀ t, csrf = some t → sess.csrf_token ≠ some t) :
    ((create_student db sess csrf form).1 = .badCsrf ∧
      (create_student db sess csrf form).2 = db) ∧
    ((delete_student db sess i csrf).1 = .badCsrf ∧
      (delete_student db sess i csrf).2 = db) ∧
    ((∃ r, db.students.find? (fun s => s.id = i) = some r) →
      (edit_student db sess i csrf form).1 = .badCsrf ∧
        (edit_student db sess i csrf form).2 = db) ∧
    (db.students.find? (fun s => s.id = i) = none →
      (edit_student db sess i csrf form).1 = .notFound ∧
        (edit_student db sess i csrf form).2 = db) := by
  have hv : validate_csrf csrf sess = false := by
    match csrf, h with
    | none, _ => rfl
    | some t, h =>
      rcases h with h | h | h
      · cases h
      · cases h
        simp [validate_csrf]
      · have := h t rfl
        simp [validate_csrf, this]
  refine ⟨⟨?_, ?_⟩, ⟨?_, ?_⟩, ?_, ?_⟩
  · simp [create_student, hv]
  · simp [create_student, hv]
  · simp [delete_student, hv]
  · simp [delete_student, hv]
  · rintro ⟨r, hr⟩
    constructor <;> simp [edit_student, hr, hv]
  · intro hr
    constructor <;> simp [edit_student, hr]

theorem C2_witness :
    ((create_student db0 sess0 none form0).1 = .badCsrf ∧
      (create_student db0 sess0 none form0).2 = db0) ∧
    ((delete_student db0 sess0 1 none).1 = .badCsrf ∧
      (delete_student db0 sess0 1 none).2 = db0) ∧
    ((∃ r, db0.students.find? (fun s => s.id = 1) = some r) →
      (edit_student db0 sess0 1 none form0).1 = .badCsrf ∧
        (edit_student db0 sess0 1 none form0).2 = db0) ∧
    (db0.students.find? (fun s => s.id = 1) = none →
      (edit_student db0 sess0 1 none form0).1 = .notFound ∧
        (edit_student db0 sess0 1 none form0).2 = db0) :=
  C2_csrf_rejected db0 sess0 none form0 1 (Or.inl rfl)

/-- C7: with a valid CSRF token, delete always reports success, deleting
twice equals deleting once, and deleting an absent id changes nothing. -/
theorem C7_delete_idempotent (db : DB) (sess : Session) (csrf : Option String)
    (i : Nat) (h : validate_csrf csrf sess = true) :
    (delete_student db sess i csrf).1 = .deleted ∧
    (delete_student (delete_student db sess i csrf).2 sess i csrf).2 =
      (delete_student db sess i csrf).2 ∧
    ((∀ s ∈ db.students, s.id ≠ i) → (delete_student db sess i csrf).2 = db) := by
  refine ⟨by simp [delete_student, h], ?_, ?_⟩
  · have hff : ∀ l : List Student,
        (l.filter (fun s => !(s.id = i))).filter (fun s => !(s.id = i)) =
          l.filter (fun s => !(s.id = i)) := by
      intro l
      rw [List.filter_filter]
      simp
    simp [delete_student, h, hff]
  · intro hall
    have hfe : db.students.filter (fun s => !(s.id = i)) = db.students :=
      List.filter_eq_self.mpr (fun a ha => by simpa using hall a ha)
    simp [delete_student, h, hfe]

theorem C7_witness :
    (delete_student db0 sess0 7 (some "tok")).1 = .deleted ∧
    (delete_student (delete_student db0 sess0 7 (some "tok")).2 sess0 7 (some "tok")).2 =
      (delete_student db0 sess0 7 (some "tok")).2 ∧
    ((∀ s ∈ db0.students, s.id ≠ 7) → (delete_student db0 sess0 7 (some "tok")).2 = db0) :=
  C7_delete_idempotent db0 sess0 (some "tok") 7 (by decide)

theorem filter_sid_singleton {l : List Student}
    (hp : l.Pairwise (fun a b => a.student_id ≠ b.student_id))
    {x : Student} (hx : x ∈ l) :
    (l.filter (fun s => s.student_id = x.student_id)).length = 1 := by
  induction l with
  | nil => cases hx
  | cons a t ih =>
    obtain ⟨hrel, hpt⟩ := List.pairwise_cons.mp hp
    rcases List.mem_cons.mp hx with rfl | hx
    · have hnil : t.filter (fun s => s.student_id = x.student_id) = [] := by
        rw [List.filter_eq_nil_iff]
        intro b hb
        simpa using (hrel b hb).symm
      simp [List.filter_cons, hnil]
    · have hne : ¬ a.student_id = x.student_id := hrel x hx
      have := ih hpt hx
      simp [List.filter_cons, hne, this]

/-- C3: if some row already carries the submitted `student_id`, a create
with valid fields and token fails with the field-specific message, inserts
nothing, and leaves exactly one row with that `student_id`. -/
theorem C3_duplicate_student_id (db : DB) (sess : Session) (csrf : Option String)
    (form : StudentForm) (x : Student)
    (hinv : db.students.Pairwise (fun a b => a.student_id ≠ b.student_id))
    (hx : x ∈ db.students)
    (hsid : x.student_id = (validate_student form).2.student_id)
    (hcsrf : validate_csrf csrf sess = true)
    (hval : (validate_student form).1 = []) :
    (create_student db sess csrf form).1 = .dupError "Student ID already exists." ∧
    (create_student db sess csrf form).2 = db ∧
    (db.students.filter
      (fun s => s.student_id = (validate_student form).2.student_id)).length = 1 := by
  have hany : db.students.any
      (fun s => s.student_id = (validate_student form).2.student_id) = true :=
    List.any_eq_true.mpr ⟨x, hx, by simp [hsid]⟩
  refine ⟨by simp [create_student, hcsrf, hval, hany], by simp [create_student, hcsrf, hval, hany], ?_⟩
  rw [← hsid]
  exact filter_sid_singleton hinv hx

/-- The database after the worked example's first successful create. -/
def db1 : DB := (create_student db0 sess0 (some "tok") form0).2

/-- The row stored by that create. -/
def student0 : Student := newStudent db0 (validate_student form0).2

theorem C3_witness :
    (create_student db1 sess0 (some "tok") form0).1 =
      .dupError "Student ID already exists." ∧
    (create_student db1 sess0 (some "tok") form0).2 = db1 ∧
    (db1.students.filter
      (fun s => s.student_id = (validate_student form0).2.student_id)).length = 1 :=
  C3_duplicate_student_id db1 sess0 (some "tok") form0 student0
    (by decide) (by decide) (by decide) (by decide) (by decide)

theorem rowsDistinct_symm : Symmetric RowsDistinct := by
  rintro a b ⟨h1, h2, h3⟩
  refine ⟨h1.symm, h2.symm, ?_⟩
  intro e hbe hae
  exact h3 e hae hbe

/-- C4: editing a student while resubmitting its own current `student_id`
and e-mail (with valid fields and token) trips neither manual uniqueness
re-check and applies the update. -/
theorem C4_edit_self_succeeds (db : DB) (sess : Session) (csrf : Option String)
    (form : StudentForm) (i : Nat) (r : Student)
    (hinv : db.students.Pairwise RowsDistinct)
    (hfind : db.students.find? (fun s => s.id = i) = some r)
    (hcsrf : validate_csrf csrf sess = true)
    (hval : (validate_student form).1 = [])
    (hsid : (validate_student form).2.student_id = r.student_id)
    (hemail : (validate_student form).2.email = r.email.getD "") :
    (edit_student db sess i csrf form).1 = .updated ∧
    (edit_student db sess i csrf form).2.students =
      db.students.map (applyUpdate (validate_student form).2 i) := by
  have hr : r ∈ db.students := List.mem_of_find?_eq_some hfind
  have hrid : r.id = i := by simpa using List.find?_some hfind
  have hforall := hinv.forall rowsDistinct_symm
  have hany1 : db.students.any
      (fun s => s.student_id = (validate_student form).2.student_id && !(s.id = i)) = false := by
    rw [List.any_eq_false]
    intro s hs
    simp only [Bool.and_eq_true, decide_eq_true_eq, Bool.not_eq_true',
      decide_eq_false_iff_not, not_and]
    intro hssid hsne
    have hsr : s ≠ r := by
      rintro rfl
      exact hsne hrid
    have hd := hforall hs hr hsr
    exact absurd (hssid.trans hsid) hd.2.1
  have hany2 : ¬ (validate_student form).2.email = "" →
      db.students.any
        (fun s => s.email = some (validate_student form).2.email && !(s.id = i)) = false := by
    intro hne
    have hre : r.email = some (validate_student form).2.email := by
      rcases he : r.email with _ | e
      · rw [he] at hemail
        simp at hemail
        exact absurd hemail hne
      · rw [he] at hemail
        simp at hemail
        rw [hemail]
    rw [List.any_eq_false]
    intro s hs
    simp only [Bool.and_eq_true, decide_eq_true_eq, Bool.not_eq_true',
      decide_eq_false_iff_not, not_and]
    intro hsem hsne
    have hsr : s ≠ r := by
      rintro rfl
      exact hsne hrid
    have hd := hforall hs hr hsr
    exact hd.2.2 _ hsem hre
  by_cases hne : (validate_student form).2.email = ""
  · constructor <;> simp [edit_student, hfind, hcsrf, hval, hany1, hne]
  · constructor <;> simp [edit_student, hfind, hcsrf, hval, hany1, hany2 hne, hne]

theorem C4_witness :
    (edit_student db1 sess0 1 (some "tok") form0).1 = .updated ∧
    (edit_student db1 sess0 1 (some "tok") form0).2.students =
      db1.students.map (applyUpdate (validate_student form0).2 1) :=
  C4_edit_self_succeeds db1 sess0 (some "tok") form0 1 student0
    (by
      have h : db1.students = [student0] := by decide
      rw [h]
      simp)
    (by decide) (by decide) (by decide) (by decide) (by decide)

theorem create_student_state (db : DB) (sess : Session) (csrf : Option String)
    (form : StudentForm) :
    (create_student db sess csrf form).2 = db ∨
      ((validate_student form).1 = [] ∧
        db.students.any
          (fun s => s.student_id = (validate_student form).2.student_id) = false ∧
        (¬ (validate_student form).2.email = "" →
          db.students.any
            (fun s => s.email = some (validate_student form).2.email) = false) ∧
        (create_student db sess csrf form).2 =
          { db with
            students := db.students ++ [newStudent db (validate_student form).2]
            nextStudentId := db.nextStudentId + 1
            clock := db.clock + 1 }) := by
  by_cases hc : validate_csrf csrf sess = true
  · by_cases hv : (validate_student form).1 = []
    · by_cases hs :
          db.students.any (fun s => s.student_id = (validate_student form).2.student_id) = true
      · left
        simp [create_student, hc, hv, hs]
      · by_cases he : (validate_student form).2.email = ""
        · right
          exact ⟨hv, by simpa using hs, fun h => absurd he h,
            by simp [create_student, hc, hv, hs, he]⟩
        · by_cases ha :
              db.students.any
                (fun s => s.email = some (validate_student form).2.email) = true
          · left
            simp [create_student, hc, hv, hs, he, ha]
          · right
            exact ⟨hv, by simpa using hs, fun _ => by simpa using ha,
              by simp [create_student, hc, hv, hs, he, ha]⟩
    · left
      simp [create_student, hc, hv]
  · left
    simp [create_student, hc]

theorem edit_student_state (db : DB) (sess : Session) (i : Nat)
    (csrf : Option String) (form : StudentForm) :
    (edit_student db sess i csrf form).2 = db ∨
      ((validate_student form).1 = [] ∧
        db.students.any
          (fun s => s.student_id = (validate_student form).2.student_id && !(s.id = i))
          = false ∧
        (¬ (validate_student form).2.email = "" →
          db.students.any
            (fun s => s.email = some (validate_student form).2.email && !(s.id = i))
            = false) ∧
        (edit_student db sess i csrf form).2 =
          { db with students := db.students.map (applyUpdate (validate_student form).2 i) }) := by
  rcases hf : db.students.find? (fun s => s.id = i) with _ | r
  · left
    simp [edit_student, hf]
  · by_cases hc : validate_csrf csrf sess = true
    · by_cases hv : (validate_student form).1 = []
      · by_cases hs :
            db.students.any
              (fun s => s.student_id = (validate_student form).2.student_id && !(s.id = i)) = true
        · left
          simp [edit_student, hf, hc, hv, hs]
        · by_cases he : (validate_student form).2.email = ""
          · right
            exact ⟨hv, by simpa using hs, fun h => absurd he h,
              by simp [edit_student, hf, hc, hv, hs, he]⟩
          · by_cases ha :
                db.students.any
                  (fun s => s.email = some (validate_student form).2.email && !(s.id = i)) = true
            · left
              simp [edit_student, hf, hc, hv, hs, he, ha]
            · right
              exact ⟨hv, by simpa using hs, fun _ => by simpa using ha,
                by simp [edit_student, hf, hc, hv, hs, he, ha]⟩
      · left
        simp [edit_student, hf, hc, hv]
    · left
      simp [edit_student, hf, hc]

theorem validate_data_nonempty (form : StudentForm)
    (hval : (validate_student form).1 = []) :
    (validate_student form).2.name ≠ "" ∧
    (validate_student form).2.student_id ≠ "" ∧
    (validate_student form).2.department ≠ "" := by
  obtain ⟨h1, h2, h3, -, -⟩ := (validate_student_fst_nil_iff form).mp hval
  rw [validate_student_snd]
  exact ⟨h1, h2, h3⟩

theorem create_preserves_DBInv (db : DB) (sess : Session) (csrf : Option String)
    (form : StudentForm) (h : DBInv db) :
    DBInv (create_student db sess csrf form).2 := by
  rcases create_student_state db sess csrf form with heq | ⟨hval, hsid, hem, heq⟩
  · rw [heq]
    exact h
  · obtain ⟨hp, hf, hid⟩ := h
    obtain ⟨hn1, hn2, hn3⟩ := validate_data_nonempty form hval
    rw [heq]
    refine ⟨?_, ?_, ?_⟩
    · rw [List.pairwise_append]
      refine ⟨hp, by simp, ?_⟩
      intro a ha b hb
      rcases List.mem_singleton.mp hb with rfl
      refine ⟨?_, ?_, ?_⟩
      · have := hid a ha
        simp only [newStudent]
        omega
      · intro hcontra
        have : db.students.any
            (fun s => s.student_id = (validate_student form).2.student_id) = true :=
          List.any_eq_true.mpr ⟨a, ha, by simp [newStudent] at hcontra; simp [hcontra]⟩
        rw [this] at hsid
        cases hsid
      · intro e hae hbe
        simp only [newStudent] at hbe
        rcases hoe : orNone (validate_student form).2.email with _ | e'
        · rw [hoe] at hbe
          cases hbe
        · rw [hoe] at hbe
          cases hbe
          simp only [orNone] at hoe
          split at hoe
          · cases hoe
          · rename_i hne
            cases hoe
            have := hem hne
            have hfalse : db.students.any
                (fun s => s.email = some (validate_student form).2.email) = true :=
              List.any_eq_true.mpr ⟨a, ha, by simp [hae]⟩
            rw [hfalse] at this
            cases this
    · intro s hs
      rcases List.mem_append.mp hs with hs | hs
      · exact hf s hs
      · rcases List.mem_singleton.mp hs with rfl
        exact ⟨hn1, hn2, hn3⟩
    · intro s hs
      dsimp only at hs ⊢
      rcases List.mem_append.mp hs with hs | hs
      · have := hid s hs
        omega
      · rcases List.mem_singleton.mp hs with rfl
        simp [newStudent]

theorem applyUpdate_id (d : StudentData) (i : Nat) (s : Student) :
    (applyUpdate d i s).id = s.id := by
  simp only [applyUpdate]
  split <;> rfl

theorem edit_preserves_DBInv (db : DB) (sess : Session) (i : Nat)
    (csrf : Option String) (form : StudentForm) (h : DBInv db) :
    DBInv (edit_student db sess i csrf form).2 := by
  rcases edit_student_state db sess i csrf form with heq | ⟨hval, hsid, hem, heq⟩
  · rw [heq]
    exact h
  · obtain ⟨hp, hf, hid⟩ := h
    obtain ⟨hn1, hn2, hn3⟩ := validate_data_nonempty form hval
    have hsid' : ∀ s ∈ db.students, ¬ s.id = i →
        ¬ s.student_id = (validate_student form).2.student_id := by
      intro s hs hsne hcontra
      have : db.students.any
          (fun s => s.student_id = (validate_student form).2.student_id && !(s.id = i)) = true :=
        List.any_eq_true.mpr ⟨s, hs, by simp [hcontra, hsne]⟩
      rw [this] at hsid
      cases hsid
    have hem' : ¬ (validate_student form).2.email = "" →
        ∀ s ∈ db.students, ¬ s.id = i →
          ¬ s.email = some (validate_student form).2.email := by
      intro hne s hs hsne hcontra
      have : db.students.any
          (fun s => s.email = some (validate_student form).2.email && !(s.id = i)) = true :=
        List.any_eq_true.mpr ⟨s, hs, by simp [hcontra, hsne]⟩
      rw [this] at hem
      · cases hem hne
    have hupd : ∀ s, s.id = i →
        (applyUpdate (validate_student form).2 i s).student_id =
            (validate_student form).2.student_id ∧
          (applyUpdate (validate_student form).2 i s).email =
            orNone (validate_student form).2.email := by
      intro s hs
      simp [applyUpdate, hs]
    have hkeep : ∀ s : Student, ¬ s.id = i → applyUpdate (validate_student form).2 i s = s := by
      intro s hs
      simp [applyUpdate, hs]
    rw [heq]
    refine ⟨?_, ?_, ?_⟩
    · rw [List.pairwise_map]
      refine hp.imp_of_mem ?_
      intro a b ha hb hab
      obtain ⟨hid1, hid2, hid3⟩ := hab
      by_cases hai : a.id = i <;> by_cases hbi : b.id = i
      · exact absurd (hai.trans hbi.symm) hid1
      · obtain ⟨hs1, he1⟩ := hupd a hai
        rw [hkeep b hbi]
        refine ⟨by rw [applyUpdate_id]; exact hid1, ?_, ?_⟩
        · rw [hs1]
          exact fun hc => hsid' b hb hbi hc.symm
        · intro e hae hbe
          rw [he1] at hae
          rcases hoe : orNone (validate_student form).2.email with _ | e'
          · rw [hoe] at hae
            cases hae
          · rw [hoe] at hae
            cases hae
            simp only [orNone] at hoe
            split at hoe
            · cases hoe
            · rename_i hne
              cases hoe
              exact hem' hne b hb hbi hbe
      · obtain ⟨hs1, he1⟩ := hupd b hbi
        rw [hkeep a hai]
        refine ⟨by rw [applyUpdate_id]; exact hid1, ?_, ?_⟩
        · rw [hs1]
          exact fun hc => hsid' a ha hai hc
        · intro e hae hbe
          rw [he1] at hbe
          rcases hoe : orNone (validate_student form).2.email with _ | e'
          · rw [hoe] at hbe
            cases hbe
          · rw [hoe] at hbe
            cases hbe
            simp only [orNone] at hoe
            split at hoe
            · cases hoe
            · rename_i hne
              cases hoe
              exact hem' hne a ha hai hae
      · rw [hkeep a hai, hkeep b hbi]
        exact ⟨hid1, hid2, hid3⟩
    · intro s hs
      dsimp only at hs
      rcases List.mem_map.mp hs with ⟨t, ht, rfl⟩
      by_cases hti : t.id = i
      · obtain ⟨hs1, -⟩ := hupd t hti
        have hname : (applyUpdate (validate_student form).2 i t).name =
            (validate_student form).2.name := by
          simp [applyUpdate, hti]
        have hdep : (applyUpdate (validate_student form).2 i t).department =
            (validate_student form).2.department := by
          simp [applyUpdate, hti]
        rw [hs1, hname, hdep]
        exact ⟨hn1, hn2, hn3⟩
      · rw [hkeep t hti]
        exact hf t ht
    · intro s hs
      dsimp only at hs ⊢
      rcases List.mem_map.mp hs with ⟨t, ht, rfl⟩
      rw [applyUpdate_id]
      exact hid t ht

theorem delete_preserves_DBInv (db : DB) (sess : Session) (i : Nat)
    (csrf : Option String) (h : DBInv db) :
    DBInv (delete_student db sess i csrf).2 := by
  obtain ⟨hp, hf, hid⟩ := h
  by_cases hc : validate_csrf csrf sess = true
  · have heq : (delete_student db sess i csrf).2 =
        { db with students := db.students.filter (fun s => !(s.id = i)) } := by
      simp [delete_student, hc]
    rw [heq]
    refine ⟨hp.sublist (List.filter_sublist db.students), ?_, ?_⟩
    · intro s hs
      exact hf s (List.mem_of_mem_filter hs)
    · intro s hs
      dsimp only at hs ⊢
      exact hid s (List.mem_of_mem_filter hs)
  · have heq : (delete_student db sess i csrf).2 = db := by
      simp [delete_student, hc]
    rw [heq]
    exact ⟨hp, hf, hid⟩

theorem init_db_DBInv (gen : String → String) : DBInv (init_db gen emptyDB) := by
  refine ⟨?_, ?_, ?_⟩ <;> simp [init_db, emptyDB]

theorem reachable_DBInv (db : DB) (h : Reachable db) : DBInv db := by
  induction h with
  | init gen => exact init_db_DBInv gen
  | create db sess csrf form _ ih => exact create_preserves_DBInv db sess csrf form ih
  | edit db sess i csrf form _ ih => exact edit_preserves_DBInv db sess i csrf form ih
  | delete db sess i csrf _ ih => exact delete_preserves_DBInv db sess i csrf ih

/-- C5: in every database state reachable from the initialized database via
the create, edit and delete handlers, `student_id`s are pairwise distinct,
non-`NULL` e-mails are pairwise distinct, and every row has non-empty name,
student id and department. -/
theorem C5_reachable_invariant (db : DB) (h : Reachable db) :
    studentsTableOk db.students := by
  obtain ⟨hp, hf, -⟩ := reachable_DBInv db h
  exact ⟨hp.imp (fun h => h.2.1), hp.imp (fun h => fun e => h.2.2 e), hf⟩

theorem C5_witness : studentsTableOk db1.students :=
  C5_reachable_invariant db1
    (Reachable.create db0 sess0 (some "tok") form0 (Reachable.init (fun _ => "h0")))

theorem edit_student_updated (db : DB) (sess : Session) (i : Nat)
    (csrf : Option String) (form : StudentForm)
    (h : (edit_student db sess i csrf form).1 = .updated) :
    (edit_student db sess i csrf form).2 =
      { db with students := db.students.map (applyUpdate (validate_student form).2 i) } := by
  rcases hf : db.students.find? (fun s => s.id = i) with _ | r
  · exfalso
    simp [edit_student, hf] at h
  · by_cases hc : validate_csrf csrf sess = true
    · by_cases hv : (validate_student form).1 = []
      · by_cases hs :
            db.students.any
              (fun s => s.student_id = (validate_student form).2.student_id && !(s.id = i)) = true
        · exfalso
          simp [edit_student, hf, hc, hv, hs] at h
        · by_cases he : (validate_student form).2.email = ""
          · simp [edit_student, hf, hc, hv, hs, he]
          · by_cases ha :
                db.students.any
                  (fun s => s.email = some (validate_student form).2.email && !(s.id = i)) = true
            · exfalso
              simp [edit_student, hf, hc, hv, hs, he, ha] at h
            · simp [edit_student, hf, hc, hv, hs, he, ha]
      · exfalso
        simp [edit_student, hf, hc, hv] at h
    · exfalso
      simp [edit_student, hf, hc] at h

/-- C10: a successful edit rewrites only the five submitted columns of the
row with the edited internal id — keeping that row's `id` and `created_at` —
leaves every other students row unchanged in place, and does not touch the
users table (nor the id counter or the clock). -/
theorem C10_edit_frame (db : DB) (sess : Session) (i : Nat)
    (csrf : Option String) (form : StudentForm)
    (h : (edit_student db sess i csrf form).1 = .updated) :
    (edit_student db sess i csrf form).2.users = db.users ∧
    (edit_student db sess i csrf form).2.nextStudentId = db.nextStudentId ∧
    (edit_student db sess i csrf form).2.clock = db.clock ∧
    (edit_student db sess i csrf form).2.students =
      db.students.map (fun s =>
        if s.id = i then
          { s with
            student_id := (validate_student form).2.student_id
            name := (validate_student form).2.name
            department := (validate_student form).2.department
            email := orNone (validate_student form).2.email
            phone := orNone (validate_student form).2.phone }
        else s) ∧
    (∀ s ∈ db.students, ¬ s.id = i →
      s ∈ (edit_student db sess i csrf form).2.students) ∧
    (∀ s ∈ db.students, s.id = i →
      { s with
        student_id := (validate_student form).2.student_id
        name := (validate_student form).2.name
        department := (validate_student form).2.department
        email := orNone (validate_student form).2.email
        phone := orNone (validate_student form).2.phone } ∈
        (edit_student db sess i csrf form).2.students) := by
  have heq := edit_student_updated db sess i csrf form h
  rw [heq]
  refine ⟨rfl, rfl, rfl, rfl, ?_, ?_⟩
  · intro s hs hsne
    exact List.mem_map.mpr ⟨s, hs, by simp [applyUpdate, hsne]⟩
  · intro s hs hsi
    exact List.mem_map.mpr ⟨s, hs, by simp [applyUpdate, hsi]⟩

theorem C10_witness :
    (edit_student db1 sess0 1 (some "tok") form0).2.users = db1.users ∧
    (edit_student db1 sess0 1 (some "tok") form0).2.nextStudentId = db1.nextStudentId ∧
    (edit_student db1 sess0 1 (some "tok") form0).2.clock = db1.clock ∧
    (edit_student db1 sess0 1 (some "tok") form0).2.students =
      db1.students.map (fun s =>
        if s.id = 1 then
          { s with
            student_id := (validate_student form0).2.student_id
            name := (validate_student form0).2.name
            department := (validate_student form0).2.department
            email := orNone (validate_student form0).2.email
            phone := orNone (validate_student form0).2.phone }
        else s) ∧
    (∀ s ∈ db1.students, ¬ s.id = 1 →
      s ∈ (edit_student db1 sess0 1 (some "tok") form0).2.students) ∧
    (∀ s ∈ db1.students, s.id = 1 →
      { s with
        student_id := (validate_student form0).2.student_id
        name := (validate_student form0).2.name
        department := (validate_student form0).2.department
        email := orNone (validate_student form0).2.email
        phone := orNone (validate_student form0).2.phone } ∈
        (edit_student db1 sess0 1 (some "tok") form0).2.students) :=
  C10_edit_frame db1 sess0 1 (some "tok") form0 (by decide)

/-- C8: an unauthenticated request to the protected `/students` route is
redirected to the login page carrying the requested path (and has no other
effect), and a subsequent successful login with that `next` parameter
redirects back to `/students`, touching no table. -/
theorem C8_login_redirect_roundtrip (check : String → String → Bool) (db : DB)
    (sess : Session) (q : String) (form : LoginForm) (u : User)
    (hanon : sess.user_id = none)
    (hfind : db.users.find? (fun v => v.username = pyStrip form.username) = some u)
    (hpw : check u.password_hash form.password = true) :
    students_route db sess q = .redirectLogin "/students" ∧
    (login_post check db sess form (some "/students")).1 = .success "/students" ∧
    (login_post check db sess form (some "/students")).2.2 = db := by
  refine ⟨by simp [students_route, login_required, hanon], ?_, ?_⟩ <;>
    simp [login_post, hfind, hpw]

/-- The password-hash pair used in the login fixtures. -/
def genW : String → String := fun p => "h" ++ p

/-- The matching checker: a hash verifies exactly the password it encodes. -/
def checkW : String → String → Bool := fun h p => h = ("h" ++ p)

/-- A freshly initialized database under `genW`. -/
def dbW : DB := init_db genW emptyDB

/-- The seeded admin row of `dbW`. -/
def adminW : User :=
  { id := 1, username := "admin", password_hash := "hadmin123", created_at := 0 }

/-- A logged-out session (no `user_id`) that already holds a CSRF token. -/
def sessAnon : Session := { user_id := none, username := none, csrf_token := some "tok" }

theorem C8_witness :
    students_route dbW sessAnon "" = .redirectLogin "/students" ∧
    (login_post checkW dbW sessAnon ⟨"admin", "admin123"⟩ (some "/students")).1 =
      .success "/students" ∧
    (login_post checkW dbW sessAnon ⟨"admin", "admin123"⟩ (some "/students")).2.2 = dbW :=
  C8_login_redirect_roundtrip checkW dbW sessAnon "" ⟨"admin", "admin123"⟩ adminW
    rfl (by decide) (by decide)

/-- C9: a login attempt whose username matches no user and one whose
password fails verification produce identical observable outcomes (same
generic flash, same rendered template), neither touches the session
identity or the database; and a successful login installs a session holding
exactly the user's id and username, erasing any prior session state. -/
theorem C9_login_failures_indistinguishable (check : String → String → Bool)
    (db : DB) (sess : Session) (f1 f2 : LoginForm) (next : Option String)
    (h1 : db.users.find? (fun u => u.username = pyStrip f1.username) = none)
    (h2 : ∀ u, db.users.find? (fun u => u.username = pyStrip f2.username) = some u →
      check u.password_hash f2.password = false) :
    (login_post check db sess f1 next).1 =
      .failure "auth/login.html" "Invalid username or password." ∧
    (login_post check db sess f2 next).1 = (login_post check db sess f1 next).1 ∧
    (login_post check db sess f1 next).2.1 = sess ∧
    (login_post check db sess f2 next).2.1 = sess ∧
    (login_post check db sess f1 next).2.2 = db ∧
    (login_post check db sess f2 next).2.2 = db ∧
    (∀ (sessA : Session) (u : User) (f : LoginForm),
      db.users.find? (fun v => v.username = pyStrip f.username) = some u →
      check u.password_hash f.password = true →
      (login_post check db sessA f next).2.1 =
        { user_id := some u.id, username := some u.username, csrf_token := none }) := by
  have hf2 : (login_post check db sess f2 next).1 =
      .failure "auth/login.html" "Invalid username or password." ∧
      (login_post check db sess f2 next).2.1 = sess ∧
      (login_post check db sess f2 next).2.2 = db := by
    rcases hf : db.users.find? (fun u => u.username = pyStrip f2.username) with _ | u
    · refine ⟨?_, ?_, ?_⟩ <;> simp [login_post, hf]
    · have hc := h2 u hf
      refine ⟨?_, ?_, ?_⟩ <;> simp [login_post, hf, hc]
  refine ⟨by simp [login_post, h1], ?_, by simp [login_post, h1], hf2.2.1,
    by simp [login_post, h1], hf2.2.2, ?_⟩
  · rw [hf2.1]
    simp [login_post, h1]
  · intro sessA u f hfind hok
    simp [login_post, hfind, hok]

theorem C9_witness :
    (login_post checkW dbW sessAnon ⟨"ghost", "pw"⟩ none).1 =
      .failure "auth/login.html" "Invalid username or password." ∧
    (login_post checkW dbW sessAnon ⟨"admin", "wrong"⟩ none).1 =
      (login_post checkW dbW sessAnon ⟨"ghost", "pw"⟩ none).1 ∧
    (login_post checkW dbW sessAnon ⟨"ghost", "pw"⟩ none).2.1 = sessAnon ∧
    (login_post checkW dbW sessAnon ⟨"admin", "wrong"⟩ none).2.1 = sessAnon ∧
    (login_post checkW dbW sessAnon ⟨"ghost", "pw"⟩ none).2.2 = dbW ∧
    (login_post checkW dbW sessAnon ⟨"admin", "wrong"⟩ none).2.2 = dbW ∧
    (∀ (sessA : Session) (u : User) (f : LoginForm),
      dbW.users.find? (fun v => v.username = pyStrip f.username) = some u →
      checkW u.password_hash f.password = true →
      (login_post checkW dbW sessA f none).2.1 =
        { user_id := some u.id, username := some u.username, csrf_token := none }) :=
  C9_login_failures_indistinguishable checkW dbW sessAnon ⟨"ghost", "pw"⟩ ⟨"admin", "wrong"⟩
    none (by decide)
    (by
      intro u hu
      have h' : some adminW = some u := hu
      cases h'
      decide)

theorem anySuffix_congr {f g : List Char → Bool} (h : ∀ t, f t = g t) :
    ∀ s, anySuffix f s = anySuffix g s
  | [] => by simp [anySuffix, h]
  | d :: s => by
      simp only [anySuffix, h, anySuffix_congr h s]

theorem anySuffix_likeCore_nil : ∀ t : List Char, anySuffix (likeCore []) t = true
  | [] => rfl
  | d :: t => by
      simp only [anySuffix, anySuffix_likeCore_nil t, Bool.or_true]

theorem likeCore_pct (p : List Char) (s : List Char) :
    likeCore ('%' :: p) s = anySuffix (likeCore p) s := by
  simp [likeCore]

theorem likeCore_nowild (q : List Char) (hq : ∀ c ∈ q, ¬ c = '%' ∧ ¬ c = '_') :
    ∀ t, likeCore (q ++ ['%']) t = startsL (q.map Char.toLower) (t.map Char.toLower) := by
  induction q with
  | nil =>
    intro t
    rw [List.nil_append, likeCore_pct, anySuffix_likeCore_nil]
    simp [startsL]
  | cons c q ih =>
    intro t
    have hc := hq c (by simp)
    have hq' : ∀ c ∈ q, ¬ c = '%' ∧ ¬ c = '_' := fun x hx => hq x (by simp [hx])
    match t with
    | [] =>
      simp [likeCore, hc.1, startsL]
    | d :: t' =>
      have hstep : likeCore (c :: q ++ ['%']) (d :: t') =
          ((Char.toLower c = Char.toLower d) && likeCore (q ++ ['%']) t') := by
        rw [List.cons_append]
        simp [likeCore, hc.1, hc.2]
      rw [hstep, ih hq' t']
      simp [startsL]

theorem anySuffix_startsL (Q : List Char) :
    ∀ s : List Char,
      anySuffix (fun t => startsL Q (t.map Char.toLower)) s =
        occursL Q (s.map Char.toLower)
  | [] => by simp [anySuffix, occursL]
  | d :: s => by
      simp only [anySuffix, occursL, List.map_cons, anySuffix_startsL Q s]

theorem sqlLike_eq_substringCI (q s : String)
    (hq : ∀ c ∈ q.data, ¬ c = '%' ∧ ¬ c = '_') :
    sqlLike q s = substringCI q s := by
  unfold sqlLike likePat substringCI
  rw [List.cons_append, likeCore_pct, anySuffix_congr (likeCore_nowild q.data hq),
    anySuffix_startsL]

theorem studentMatches_iff_spec (q : String) (s : Student)
    (hq : ∀ c ∈ q.data, ¬ c = '%' ∧ ¬ c = '_') :
    studentMatches q s = true ↔ specMatches q s := by
  obtain ⟨i, sid, nm, dep, em, ph, ca⟩ := s
  unfold studentMatches specMatches
  dsimp only
  cases em with
  | none =>
    dsimp only
    rw [sqlLike_eq_substringCI q nm hq, sqlLike_eq_substringCI q sid hq,
      sqlLike_eq_substringCI q dep hq]
    simp [or_assoc]
  | some e =>
    dsimp only
    rw [sqlLike_eq_substringCI q nm hq, sqlLike_eq_substringCI q sid hq,
      sqlLike_eq_substringCI q dep hq, sqlLike_eq_substringCI q e hq]
    simp [or_assoc]

instance : IsTotal Student newerFirst :=
  ⟨fun a b => Nat.le_total b.created_at a.created_at⟩

instance : IsTrans Student newerFirst :=
  ⟨fun _ _ _ hab hbc => Nat.le_trans hbc hab⟩

/-- A single student whose fields contain no `'%'` character. -/
def cexStudent : Student :=
  { id := 1, student_id := "S1", name := "Alice", department := "CS",
    email := none, phone := none, created_at := 0 }

/-- A database holding exactly `cexStudent`. -/
def cexDB : DB :=
  { users := [], students := [cexStudent], nextUserId := 1, nextStudentId := 2, clock := 1 }

/-- C6 counterexample: the query string `"%"` is non-empty, is a SQL `LIKE`
wildcard rather than a literal, and makes the list endpoint return a
student none of whose searchable fields contains `"%"` as a substring. -/
theorem C6_counterexample :
    ¬ pyStrip "%" = "" ∧
    list_students cexDB "%" = [cexStudent] ∧
    ¬ specMatches (pyStrip "%") cexStudent := by
  refine ⟨by decide, by decide, ?_⟩
  rintro (h | h | h | ⟨e, he, -⟩)
  · exact absurd h (by decide)
  · exact absurd h (by decide)
  · exact absurd h (by decide)
  · exact Option.noConfusion he

/-- C6 (amended): for every query that strips to a non-empty string free of
the `LIKE` wildcards `'%'` and `'_'`, the list endpoint returns exactly the
rows with a case-insensitive substring hit in name, student id, department
or e-mail, ordered newest-first by `created_at`; and if the stripped query
hits exactly one student's department and no other searchable field of any
student, exactly that student is returned. -/
theorem C6_search_substring (db : DB) (qRaw : String)
    (hq : ¬ pyStrip qRaw = "")
    (hw : ∀ c ∈ (pyStrip qRaw).data, ¬ c = '%' ∧ ¬ c = '_') :
    (∀ s : Student, s ∈ list_students db qRaw ↔
      (s ∈ db.students ∧ specMatches (pyStrip qRaw) s)) ∧
    (list_students db qRaw).Pairwise newerFirst ∧
    (∀ s0 : Student,
      db.students.filter (fun s => substringCI (pyStrip qRaw) s.department) = [s0] →
      (∀ t ∈ db.students,
        ¬ substringCI (pyStrip qRaw) t.name = true ∧
        ¬ substringCI (pyStrip qRaw) t.student_id = true ∧
        (∀ e, t.email = some e → ¬ substringCI (pyStrip qRaw) e = true)) →
      list_students db qRaw = [s0]) := by
  have hlist : list_students db qRaw =
      (db.students.filter (studentMatches (pyStrip qRaw))).insertionSort newerFirst := by
    simp [list_students, hq]
  refine ⟨?_, ?_, ?_⟩
  · intro s
    rw [hlist]
    rw [List.mem_insertionSort, List.mem_filter, studentMatches_iff_spec _ _ hw]
  · rw [hlist]
    exact List.sorted_insertionSort newerFirst _
  · intro s0 hdep hother
    have hfe : db.students.filter (studentMatches (pyStrip qRaw)) =
        db.students.filter (fun s => substringCI (pyStrip qRaw) s.department) := by
      apply List.filter_congr
      intro t ht
      obtain ⟨hn, hs, he⟩ := hother t ht
      unfold studentMatches
      rw [sqlLike_eq_substringCI _ t.name hw, sqlLike_eq_substringCI _ t.student_id hw,
        sqlLike_eq_substringCI _ t.department hw]
      have hn' : substringCI (pyStrip qRaw) t.name = false := by
        simpa using hn
      have hs' : substringCI (pyStrip qRaw) t.student_id = false := by
        simpa using hs
      rcases hte : t.email with _ | e
      · simp [hn', hs']
      · dsimp only
        rw [sqlLike_eq_substringCI _ e hw]
        have he' : substringCI (pyStrip qRaw) e = false := by
          simpa using he e hte
        simp [hn', hs', he']
    rw [hlist, hfe, hdep]
    simp

theorem C6_witness :
    (∀ s : Student, s ∈ list_students db1 "cs" ↔
      (s ∈ db1.students ∧ specMatches (pyStrip "cs") s)) ∧
    (list_students db1 "cs").Pairwise newerFirst ∧
    (∀ s0 : Student,
      db1.students.filter (fun s => substringCI (pyStrip "cs") s.department) = [s0] →
      (∀ t ∈ db1.students,
        ¬ substringCI (pyStrip "cs") t.name = true ∧
        ¬ substringCI (pyStrip "cs") t.student_id = true ∧
        (∀ e, t.email = some e → ¬ substringCI (pyStrip "cs") e = true)) →
      list_students db1 "cs" = [s0]) :=
  C6_search_substring db1 "cs" (by decide) (by decide)
